import Mathlib

/-!
Verification of the status aggregation and rendering pipeline of
`git-prompt-rs` (src/main.rs), shallowly embedded in Lean 4.

The repository interface (git2) is modelled as a record of pre-resolved
results; all functions of the pipeline itself are translated from
src/main.rs.  Machine integers: the counters are `i32` in the source and
only ever incremented once per list element, so they are modelled as `Int`;
`usize` commit counts are modelled as `Nat`.
-/

namespace GitPrompt

/-- Semantic color roles, after `colored::Color` (the variants the program
can mention; the source only ever passes Blue, Green, Red, Yellow, but
`format_color` pattern-matches with a catch-all arm). -/
inductive Color
  | black
  | red
  | green
  | yellow
  | blue
  | magenta
  | cyan
  | white
deriving DecidableEq, Repr

/-- Composite `git2::Status` bit flags of one status entry, as independent
booleans.  `git2::Status::CURRENT` is the empty flag set. -/
structure Status where
  index_new : Bool
  index_modified : Bool
  index_deleted : Bool
  index_renamed : Bool
  index_typechange : Bool
  wt_new : Bool
  wt_modified : Bool
  wt_deleted : Bool
  wt_renamed : Bool
  wt_typechange : Bool
  conflicted : Bool
  ignored : Bool
deriving DecidableEq, Repr

/-- `git2::Status::CURRENT`: the empty flag set. -/
def Status.current : Status :=
  ⟨false, false, false, false, false, false, false, false, false, false, false, false⟩

/-- One entry of `git2::Statuses`: its composite status flags and whether
`index_to_workdir()` returns a delta (`some`) or `None` (`none`). -/
structure StatusEntry where
  status : Status
  index_to_workdir : Option Unit
deriving DecidableEq, Repr

/-- The `git2::ErrorCode` values the program distinguishes.
`genericError` is the code carried by `Error::from_str`. -/
inductive ErrorCode
  | genericError
  | notFound
  | unbornBranch
  | otherError
deriving DecidableEq, Repr

/-- A `git2::Error`: a code and a message. -/
structure GitError where
  code : ErrorCode
  message : String
deriving DecidableEq, Repr

/-- A resolved head reference, keeping only what the program reads:
its optional shorthand display form. -/
structure HeadRef where
  shorthand : Option String
deriving DecidableEq, Repr

/-- The repository interface consumed by the program, with every git2 call
it makes pre-resolved to its result.  Object ids are opaque `Nat`s. -/
structure Repo where
  is_bare : Bool
  statuses : Except GitError (List StatusEntry)
  head : Except GitError HeadRef
  revparse_single_head : Except GitError Nat
  revparse_ext_upstream : Except GitError Nat
  graph_ahead_behind : Nat → Nat → Except GitError (Nat × Nat)

/-- src/main.rs lines 26-30: `is_ahead_behind_remote`.  Resolves `HEAD` and
the upstream `@\x7bu\x7d`, then asks for the graph ahead/behind counts; any
failure short-circuits as an error. -/
def is_ahead_behind_remote (repo : Repo) : Except GitError (Nat × Nat) := do
  let head ← repo.revparse_single_head
  let upstream ← repo.revparse_ext_upstream
  repo.graph_ahead_behind head upstream

/-- The color-name table of the zsh branch of `format_color`
(src/main.rs lines 34-40). -/
def zsh_color_name (color : Color) : String :=
  match color with
  | Color.blue => "blue"
  | Color.green => "green"
  | Color.red => "red"
  | Color.yellow => "yellow"
  | _ => "not implemented yet"

/-- The ANSI foreground code the `colored` crate emits for each color
(`Color::to_fg_str`); modelled from the collaborating library's documented
behaviour, used only when coloring is forced on. -/
def ansi_fg_code (color : Color) : String :=
  match color with
  | Color.black => "30"
  | Color.red => "31"
  | Color.green => "32"
  | Color.yellow => "33"
  | Color.blue => "34"
  | Color.magenta => "35"
  | Color.cyan => "36"
  | Color.white => "37"

/-- src/main.rs lines 32-44: `format_color`.  In zsh mode the text is
wrapped in a percent-delimited directive with the named color; otherwise it
goes through the `colored` crate, whose global override (set from the
`--color` flag in `main`) is threaded here as the explicit `colorOn`
parameter: forced on it wraps in ANSI escapes, forced off it returns the
text unchanged. -/
def format_color (s : String) (color : Color) (zsh : Bool) (colorOn : Bool) : String :=
  if zsh then
    "%F\x7b" ++ zsh_color_name color ++ "\x7d" ++ s ++ "%f"
  else if colorOn then
    "\x1b[" ++ ansi_fg_code color ++ "m" ++ s ++ "\x1b[0m"
  else
    s

/-- src/main.rs lines 46-53: `stringify_status`.  Renders one counter
triple, or the empty string when no counter is positive. -/
def stringify_status (status : Int × Int × Int) (pfx : String) (color : Color)
    (zsh : Bool) (colorOn : Bool) : String :=
  let (new, modified, deleted) := status
  if new > 0 ∨ modified > 0 ∨ deleted > 0 then
    format_color pfx Color.yellow zsh colorOn ++
      format_color ("+" ++ toString new ++ " ~" ++ toString modified ++ " -" ++ toString deleted)
        color zsh colorOn
  else
    ""

/-- src/main.rs lines 55-64: `get_branch_name`.  Unborn-branch and
not-found head failures become the no-branch case; other failures
propagate; a resolved head without a shorthand also yields the sentinel. -/
def get_branch_name (repo : Repo) : Except GitError String :=
  match repo.head with
  | Except.ok h => Except.ok (h.shorthand.getD "no branch")
  | Except.error e =>
    if e.code = ErrorCode.unbornBranch ∨ e.code = ErrorCode.notFound then
      Except.ok "no branch"
    else
      Except.error e

/-- The body of the first loop of `get_short_status`
(src/main.rs lines 75-84): the priority-ordered index-flag test,
incrementing exactly one counter (or none, for the catch-all arm). -/
def index_step (c : Int × Int × Int) (e : StatusEntry) : Int × Int × Int :=
  let (n, m, d) := c
  let s := e.status
  if s.index_new then (n + 1, m, d)
  else if s.index_modified then (n, m + 1, d)
  else if s.index_deleted then (n, m, d + 1)
  else if s.index_renamed then (n, m + 1, d)
  else if s.index_typechange then (n, m + 1, d)
  else (n, m, d)

/-- The body of the second loop of `get_short_status`
(src/main.rs lines 88-104): entries that are exactly current or carry no
index-to-workdir delta are skipped, the rest go through the
priority-ordered worktree-flag test. -/
def wt_step (c : Int × Int × Int) (e : StatusEntry) : Int × Int × Int :=
  if e.status = Status.current ∨ e.index_to_workdir = none then c
  else
    let (n, m, d) := c
    let s := e.status
    if s.wt_new then (n + 1, m, d)
    else if s.wt_modified then (n, m + 1, d)
    else if s.wt_deleted then (n, m, d + 1)
    else if s.wt_renamed then (n, m + 1, d)
    else if s.wt_typechange then (n, m + 1, d)
    else (n, m, d)

/-- src/main.rs lines 66-110: `get_short_status`.  The index counters fold
over the entries whose status is not CURRENT; the worktree counters fold
over all entries with the skip test inside the loop body. -/
def get_short_status (statuses : List StatusEntry) :
    (Int × Int × Int) × (Int × Int × Int) :=
  let index_counts :=
    (statuses.filter (fun e => decide (e.status ≠ Status.current))).foldl index_step (0, 0, 0)
  let wt_counts := statuses.foldl wt_step (0, 0, 0)
  (index_counts, wt_counts)

/-- src/main.rs lines 131-134: the caller-side match that maps any
divergence-resolution failure to (0, 0). -/
def divergence (repo : Repo) : Nat × Nat :=
  match is_ahead_behind_remote repo with
  | Except.ok p => p
  | Except.error _ => (0, 0)

/-- src/main.rs lines 136-150: `vec_of_status`, the ordered list of the
five candidate segments. -/
def vec_of_status (branch_name : String) (ahead behind : Nat)
    (index_status wt_status : Int × Int × Int) (zsh colorOn : Bool) : List String :=
  [format_color branch_name Color.blue zsh colorOn,
   if ahead > 0 then format_color ("↑" ++ toString ahead) Color.green zsh colorOn else "",
   if behind > 0 then format_color ("↓" ++ toString behind) Color.red zsh colorOn else "",
   stringify_status index_status "" Color.green zsh colorOn,
   stringify_status wt_status "| " Color.red zsh colorOn]

/-- src/main.rs lines 152-161: the printed line — the non-empty candidates
joined with single spaces, wrapped in the colored brackets. -/
def composeLine (branch_name : String) (ahead behind : Nat)
    (index_status wt_status : Int × Int × Int) (zsh colorOn : Bool) : String :=
  format_color "[" Color.yellow zsh colorOn ++
    String.intercalate " "
      ((vec_of_status branch_name ahead behind index_status wt_status zsh colorOn).filter
        (fun elem => !elem.isEmpty)) ++
    format_color "]" Color.yellow zsh colorOn

/-- src/main.rs lines 112-164: `run`.  The repository-open result is passed
in already resolved; bare repositories are rejected; statuses, branch name
and divergence are gathered in source order and the composed line is the
produced output. -/
def run (repoRes : Except GitError Repo) (zsh colorOn : Bool) : Except GitError String :=
  match repoRes with
  | Except.error e => Except.error e
  | Except.ok repo =>
    if repo.is_bare then
      Except.error ⟨ErrorCode.genericError, "Cannot report status on bare repository"⟩
    else
      match repo.statuses with
      | Except.error e => Except.error e
      | Except.ok sts =>
        let (index_status, wt_status) := get_short_status sts
        match get_branch_name repo with
        | Except.error e => Except.error e
        | Except.ok branch_name =>
          let (ahead, behind) := divergence repo
          Except.ok (composeLine branch_name ahead behind index_status wt_status zsh colorOn)

/-- Observable outcome of one process invocation: the line printed to
stdout (if any), the message logged at debug verbosity (if any), and the
process exit code. -/
structure MainResult where
  output : Option String
  debug_log : Option String
  exit_code : Nat
deriving DecidableEq, Repr

/-- src/main.rs lines 166-183: `main`.  A successful run prints its line; a
failed run prints nothing, logs the error message at debug level, and the
process exits 0 either way. -/
def main (repoRes : Except GitError Repo) (zsh colorOn : Bool) : MainResult :=
  match run repoRes zsh colorOn with
  | Except.ok line => { output := some line, debug_log := none, exit_code := 0 }
  | Except.error e => { output := none, debug_log := some e.message, exit_code := 0 }

/-! ## Specification-side restatement of the classifier (for claim C1)

The claim describes each counter as a count of records matching a category
under a first-match-wins priority order; the following definitions restate
that description directly, to be compared with `get_short_status`. -/

/-- The three counting categories of the spec (renamed and type-changed
records fold into `modified`). -/
inductive ChangeKind
  | newFile
  | modified
  | deleted
deriving DecidableEq, Repr

/-- Spec wording: test the index-side flags in the fixed priority order
new, modified, deleted, renamed (counts as modified), type-changed (counts
as modified); first match wins, no match means no category. -/
def index_kind (s : Status) : Option ChangeKind :=
  if s.index_new then some ChangeKind.newFile
  else if s.index_modified then some ChangeKind.modified
  else if s.index_deleted then some ChangeKind.deleted
  else if s.index_renamed then some ChangeKind.modified
  else if s.index_typechange then some ChangeKind.modified
  else none

/-- Spec wording: the same priority-ordered test using the worktree-side
flag set. -/
def wt_kind (s : Status) : Option ChangeKind :=
  if s.wt_new then some ChangeKind.newFile
  else if s.wt_modified then some ChangeKind.modified
  else if s.wt_deleted then some ChangeKind.deleted
  else if s.wt_renamed then some ChangeKind.modified
  else if s.wt_typechange then some ChangeKind.modified
  else none

/-- Spec wording: the records examined for the index triple are those whose
composite status is not current/unmodified. -/
def index_examined (l : List StatusEntry) : List StatusEntry :=
  l.filter (fun e => decide (e.status ≠ Status.current))

/-- Spec wording: the records examined for the worktree triple are those
that are neither exactly current nor lacking an index-vs-worktree delta
indicator. -/
def wt_examined (l : List StatusEntry) : List StatusEntry :=
  l.filter (fun e => decide (¬ (e.status = Status.current ∨ e.index_to_workdir = none)))

/-- Spec wording: the number of examined records classified into category
`k` (as a mathematical integer, matching the `i32` counters). -/
def count_kind (kind : Status → Option ChangeKind) (l : List StatusEntry)
    (k : ChangeKind) : Int :=
  ((l.countP fun e => decide (kind e.status = some k)) : Int)

theorem index_step_kind (n m d : Int) (e : StatusEntry) :
    index_step (n, m, d) e =
      match index_kind e.status with
      | some ChangeKind.newFile => (n + 1, m, d)
      | some ChangeKind.modified => (n, m + 1, d)
      | some ChangeKind.deleted => (n, m, d + 1)
      | none => (n, m, d) := by
  rcases e with ⟨s, itw⟩
  rcases s with ⟨f1, f2, f3, f4, f5, g1, g2, g3, g4, g5, c1, c2⟩
  simp only [index_step, index_kind]
  cases f1 <;> cases f2 <;> cases f3 <;> cases f4 <;> cases f5 <;> rfl

theorem wt_step_kind (n m d : Int) (e : StatusEntry) :
    wt_step (n, m, d) e =
      if e.status = Status.current ∨ e.index_to_workdir = none then (n, m, d)
      else
        match wt_kind e.status with
        | some ChangeKind.newFile => (n + 1, m, d)
        | some ChangeKind.modified => (n, m + 1, d)
        | some ChangeKind.deleted => (n, m, d + 1)
        | none => (n, m, d) := by
  rcases e with ⟨s, itw⟩
  by_cases hcond : s = Status.current ∨ itw = none
  · simp [wt_step, hcond]
  · simp only [wt_step, hcond, if_neg, not_false_iff, ite_false]
    rcases s with ⟨f1, f2, f3, f4, f5, g1, g2, g3, g4, g5, c1, c2⟩
    simp only [wt_kind]
    cases g1 <;> cases g2 <;> cases g3 <;> cases g4 <;> cases g5 <;> rfl

theorem foldl_kind_step (step : Int × Int × Int → StatusEntry → Int × Int × Int)
    (kind : Status → Option ChangeKind)
    (hstep : ∀ n m d e, step (n, m, d) e =
      match kind e.status with
      | some ChangeKind.newFile => (n + 1, m, d)
      | some ChangeKind.modified => (n, m + 1, d)
      | some ChangeKind.deleted => (n, m, d + 1)
      | none => (n, m, d))
    (l : List StatusEntry) (n m d : Int) :
    l.foldl step (n, m, d) =
      (n + count_kind kind l ChangeKind.newFile,
       m + count_kind kind l ChangeKind.modified,
       d + count_kind kind l ChangeKind.deleted) := by
  induction l generalizing n m d with
  | nil => simp [count_kind]
  | cons e t ih =>
    rw [List.foldl_cons, hstep]
    cases hk : kind e.status with
    | none =>
      rw [ih]
      simp [count_kind, List.countP_cons, hk]
    | some k =>
      cases k <;> rw [ih] <;>
        simp [count_kind, List.countP_cons, hk, Prod.ext_iff] <;> omega

theorem wt_foldl (l : List StatusEntry) (n m d : Int) :
    l.foldl wt_step (n, m, d) =
      (n + count_kind wt_kind (wt_examined l) ChangeKind.newFile,
       m + count_kind wt_kind (wt_examined l) ChangeKind.modified,
       d + count_kind wt_kind (wt_examined l) ChangeKind.deleted) := by
  induction l generalizing n m d with
  | nil => simp [count_kind, wt_examined]
  | cons e t ih =>
    rw [List.foldl_cons, wt_step_kind]
    by_cases hskip : e.status = Status.current ∨ e.index_to_workdir = none
    · have hex : wt_examined (e :: t) = wt_examined t := by
        simp [wt_examined, List.filter_cons, hskip]
        tauto
      rw [if_pos hskip, ih, hex]
    · have hex : wt_examined (e :: t) = e :: wt_examined t := by
        simp [wt_examined, List.filter_cons, hskip]
        tauto
      rw [if_neg hskip]
      cases hk : wt_kind e.status with
      | none =>
        rw [ih]
        simp [hex, count_kind, List.countP_cons, hk]
      | some k =>
        cases k <;> rw [ih] <;>
          simp [hex, count_kind, List.countP_cons, hk, Prod.ext_iff] <;> omega

theorem count_kind_nonneg (kind : Status → Option ChangeKind) (l : List StatusEntry)
    (k : ChangeKind) : 0 ≤ count_kind kind l k :=
  Int.natCast_nonneg _

theorem count_kind_sum_le (kind : Status → Option ChangeKind) (l : List StatusEntry) :
    count_kind kind l ChangeKind.newFile + count_kind kind l ChangeKind.modified +
      count_kind kind l ChangeKind.deleted ≤ (l.length : Int) := by
  induction l with
  | nil => simp [count_kind]
  | cons e t ih =>
    cases hk : kind e.status with
    | none =>
      simp only [count_kind, List.countP_cons, hk, List.length_cons] at ih ⊢
      simp
      omega
    | some k =>
      cases k <;>
        simp only [count_kind, List.countP_cons, hk, List.length_cons] at ih ⊢ <;>
        simp <;> omega

/-- Claim C1: `get_short_status` returns exactly the per-category counts of
the first-match-wins classifier — the index triple over the records whose
composite status is not current, the worktree triple over the records that
are neither current nor lacking an index-to-workdir delta — and every
counter is nonnegative while each side's three counters sum to at most the
number of records examined for that side. -/
theorem get_short_status_counts (l : List StatusEntry) :
    get_short_status l =
      ((count_kind index_kind (index_examined l) ChangeKind.newFile,
        count_kind index_kind (index_examined l) ChangeKind.modified,
        count_kind index_kind (index_examined l) ChangeKind.deleted),
       (count_kind wt_kind (wt_examined l) ChangeKind.newFile,
        count_kind wt_kind (wt_examined l) ChangeKind.modified,
        count_kind wt_kind (wt_examined l) ChangeKind.deleted)) ∧
    (0 ≤ (get_short_status l).1.1 ∧ 0 ≤ (get_short_status l).1.2.1 ∧
     0 ≤ (get_short_status l).1.2.2 ∧ 0 ≤ (get_short_status l).2.1 ∧
     0 ≤ (get_short_status l).2.2.1 ∧ 0 ≤ (get_short_status l).2.2.2) ∧
    (get_short_status l).1.1 + (get_short_status l).1.2.1 + (get_short_status l).1.2.2 ≤
      ((index_examined l).length : Int) ∧
    (get_short_status l).2.1 + (get_short_status l).2.2.1 + (get_short_status l).2.2.2 ≤
      ((wt_examined l).length : Int) := by
  have hmain : get_short_status l =
      ((count_kind index_kind (index_examined l) ChangeKind.newFile,
        count_kind index_kind (index_examined l) ChangeKind.modified,
        count_kind index_kind (index_examined l) ChangeKind.deleted),
       (count_kind wt_kind (wt_examined l) ChangeKind.newFile,
        count_kind wt_kind (wt_examined l) ChangeKind.modified,
        count_kind wt_kind (wt_examined l) ChangeKind.deleted)) := by
    show ((index_examined l).foldl index_step (0, 0, 0), l.foldl wt_step (0, 0, 0)) = _
    rw [foldl_kind_step index_step index_kind index_step_kind, wt_foldl]
    simp
  refine ⟨hmain, ?_, ?_, ?_⟩ <;> rw [hmain]
  · exact ⟨count_kind_nonneg _ _ _, count_kind_nonneg _ _ _, count_kind_nonneg _ _ _,
      count_kind_nonneg _ _ _, count_kind_nonneg _ _ _, count_kind_nonneg _ _ _⟩
  · exact count_kind_sum_le index_kind (index_examined l)
  · exact count_kind_sum_le wt_kind (wt_examined l)

/-! ## String helper lemmas -/

theorem length_pos_ne_empty {s : String} (h : 0 < s.length) : s ≠ "" := by
  intro he
  subst he
  exact absurd h (by decide)

theorem length_append_pos_left (s t : String) (h : 0 < s.length) :
    0 < (s ++ t).length := by
  rw [String.length_append]
  omega

theorem length_append_pos_right (s t : String) (h : 0 < t.length) :
    0 < (s ++ t).length := by
  rw [String.length_append]
  omega

theorem format_color_length (s : String) (c : Color) (zsh co : Bool) :
    s.length ≤ (format_color s c zsh co).length := by
  unfold format_color
  split_ifs <;> simp [String.length_append] <;> omega

/-- The rendered counter body `+a ~b -c` is never the empty string. -/
theorem status_body_length_pos (a b c : Int) :
    0 < ("+" ++ toString a ++ " ~" ++ toString b ++ " -" ++ toString c).length := by
  apply length_append_pos_left
  apply length_append_pos_left
  apply length_append_pos_left
  apply length_append_pos_left
  apply length_append_pos_left
  decide

theorem stringify_status_pos (a b c : Int) (pfx : String) (color : Color) (zsh co : Bool)
    (h : a > 0 ∨ b > 0 ∨ c > 0) :
    stringify_status (a, b, c) pfx color zsh co =
      format_color pfx Color.yellow zsh co ++
        format_color ("+" ++ toString a ++ " ~" ++ toString b ++ " -" ++ toString c)
          color zsh co := by
  unfold stringify_status
  dsimp only
  rw [if_pos h]

theorem stringify_status_nonpos (a b c : Int) (pfx : String) (color : Color) (zsh co : Bool)
    (h : ¬ (a > 0 ∨ b > 0 ∨ c > 0)) :
    stringify_status (a, b, c) pfx color zsh co = "" := by
  unfold stringify_status
  dsimp only
  rw [if_neg h]

theorem stringify_status_ne_empty (a b c : Int) (pfx : String) (color : Color) (zsh co : Bool)
    (h : a > 0 ∨ b > 0 ∨ c > 0) :
    stringify_status (a, b, c) pfx color zsh co ≠ "" := by
  rw [stringify_status_pos a b c pfx color zsh co h]
  apply length_pos_ne_empty
  apply length_append_pos_right
  exact lt_of_lt_of_le (status_body_length_pos a b c) (format_color_length _ _ _ _)

/-- Claim C2: a status segment is the empty string exactly when none of its
three counters is positive (so it is dropped by the empty-segment filter of
the composed line), and when some counter is positive the segment is the
yellow-wrapped prefix (empty for the index side, the pipe for the worktree
side) followed by the color-wrapped `+new ~modified -deleted` body. -/
theorem status_segment_presence (n m d wn wm wd : Int) (zsh co : Bool) :
    (stringify_status (n, m, d) "" Color.green zsh co ≠ "" ↔ (n > 0 ∨ m > 0 ∨ d > 0)) ∧
    (stringify_status (wn, wm, wd) "| " Color.red zsh co ≠ "" ↔ (wn > 0 ∨ wm > 0 ∨ wd > 0)) ∧
    ((n > 0 ∨ m > 0 ∨ d > 0) →
      stringify_status (n, m, d) "" Color.green zsh co =
        format_color "" Color.yellow zsh co ++
          format_color ("+" ++ toString n ++ " ~" ++ toString m ++ " -" ++ toString d)
            Color.green zsh co) ∧
    ((wn > 0 ∨ wm > 0 ∨ wd > 0) →
      stringify_status (wn, wm, wd) "| " Color.red zsh co =
        format_color "| " Color.yellow zsh co ++
          format_color ("+" ++ toString wn ++ " ~" ++ toString wm ++ " -" ++ toString wd)
            Color.red zsh co) ∧
    (¬ (n > 0 ∨ m > 0 ∨ d > 0) → stringify_status (n, m, d) "" Color.green zsh co = "") := by
  refine ⟨⟨fun hne => ?_, fun h => stringify_status_ne_empty n m d "" Color.green zsh co h⟩,
    ⟨fun hne => ?_, fun h => stringify_status_ne_empty wn wm wd "| " Color.red zsh co h⟩,
    fun h => stringify_status_pos n m d "" Color.green zsh co h,
    fun h => stringify_status_pos wn wm wd "| " Color.red zsh co h,
    fun h => stringify_status_nonpos n m d "" Color.green zsh co h⟩
  · by_contra hc
    exact hne (stringify_status_nonpos n m d "" Color.green zsh co hc)
  · by_contra hc
    exact hne (stringify_status_nonpos wn wm wd "| " Color.red zsh co hc)

theorem status_segment_presence_witness :
    ((2 : Int) > 0 ∨ (1 : Int) > 0 ∨ (0 : Int) > 0) ∧
    stringify_status (2, 1, 0) "" Color.green false false =
      format_color "" Color.yellow false false ++
        format_color ("+" ++ toString (2 : Int) ++ " ~" ++ toString (1 : Int) ++ " -" ++
          toString (0 : Int)) Color.green false false :=
  ⟨by decide, (status_segment_presence 2 1 0 0 0 0 false false).2.2.1 (by decide)⟩

/-- Claim C3: the ahead marker candidate is a non-empty segment exactly when
ahead is positive and the behind marker candidate exactly when behind is
positive — so with divergence (0, 0), as after any upstream-resolution
failure, both markers are absent — and these candidates are exactly the
second and third entries of the ordered candidate list of the composed
output. -/
theorem divergence_marker_presence (branch : String) (ahead behind : Nat)
    (idx wt : Int × Int × Int) (zsh co : Bool) :
    ((if ahead > 0 then format_color ("↑" ++ toString ahead) Color.green zsh co else "") ≠ ""
      ↔ 0 < ahead) ∧
    ((if behind > 0 then format_color ("↓" ++ toString behind) Color.red zsh co else "") ≠ ""
      ↔ 0 < behind) ∧
    vec_of_status branch ahead behind idx wt zsh co =
      [format_color branch Color.blue zsh co,
       if ahead > 0 then format_color ("↑" ++ toString ahead) Color.green zsh co else "",
       if behind > 0 then format_color ("↓" ++ toString behind) Color.red zsh co else "",
       stringify_status idx "" Color.green zsh co,
       stringify_status wt "| " Color.red zsh co] ∧
    (ahead = 0 →
      (if ahead > 0 then format_color ("↑" ++ toString ahead) Color.green zsh co else "") = "") ∧
    (behind = 0 →
      (if behind > 0 then format_color ("↓" ++ toString behind) Color.red zsh co else "") = "") := by
  have hup : ∀ (k : Nat), 0 < k →
      format_color ("↑" ++ toString k) Color.green zsh co ≠ "" := by
    intro k _
    apply length_pos_ne_empty
    apply lt_of_lt_of_le ?_ (format_color_length _ _ _ _)
    apply length_append_pos_left
    decide
  have hdown : ∀ (k : Nat), 0 < k →
      format_color ("↓" ++ toString k) Color.red zsh co ≠ "" := by
    intro k _
    apply length_pos_ne_empty
    apply lt_of_lt_of_le ?_ (format_color_length _ _ _ _)
    apply length_append_pos_left
    decide
  refine ⟨⟨fun hne => ?_, fun h => ?_⟩, ⟨fun hne => ?_, fun h => ?_⟩, rfl,
    fun h => by simp [h], fun h => by simp [h]⟩
  · by_contra hc
    rw [if_neg (by omega)] at hne
    exact hne rfl
  · rw [if_pos h]
    exact hup ahead h
  · by_contra hc
    rw [if_neg (by omega)] at hne
    exact hne rfl
  · rw [if_pos h]
    exact hdown behind h

theorem divergence_marker_presence_witness :
    (0 : Nat) = 0 ∧
    (if (0 : Nat) > 0 then format_color ("↑" ++ toString (0 : Nat)) Color.green false false
      else "") = "" :=
  ⟨rfl,
    (divergence_marker_presence "main" 0 0 (0, 0, 0) (0, 0, 0) false false).2.2.2.1 rfl⟩

theorem intercalate_single (s a : String) : String.intercalate s [a] = a := rfl

/-- Claim C4: every successful run's output is a composed line; the
composed line is the five candidate segments in fixed order with the empty
candidates dropped, the survivors joined by single spaces and the result
wrapped in the bracket characters; and in plain mode with zero divergence
and zero counters the output is exactly the bracketed branch name. -/
theorem compose_output (repoRes : Except GitError Repo) (zsh co : Bool) (line : String)
    (b : String) (a bh : Nat) (i w : Int × Int × Int) :
    (run repoRes zsh co = Except.ok line →
      ∃ b2 a2 bh2 i2 w2, line = composeLine b2 a2 bh2 i2 w2 zsh co) ∧
    (composeLine b a bh i w zsh co =
      format_color "[" Color.yellow zsh co ++
        String.intercalate " "
          ((vec_of_status b a bh i w zsh co).filter (fun elem => !elem.isEmpty)) ++
        format_color "]" Color.yellow zsh co) ∧
    (composeLine b 0 0 (0, 0, 0) (0, 0, 0) false false = "[" ++ b ++ "]") := by
  refine ⟨?_, rfl, ?_⟩
  · intro h
    cases repoRes with
    | error e => simp [run] at h
    | ok repo =>
      unfold run at h
      dsimp only at h
      by_cases hb : repo.is_bare
      · rw [if_pos hb] at h
        simp at h
      · rw [if_neg hb] at h
        cases hst : repo.statuses with
        | error e => rw [hst] at h; simp at h
        | ok sts =>
          rw [hst] at h
          dsimp only at h
          rcases hgs : get_short_status sts with ⟨i2, w2⟩
          rw [hgs] at h
          dsimp only at h
          cases hbn : get_branch_name repo with
          | error e => rw [hbn] at h; simp at h
          | ok bn =>
            rw [hbn] at h
            dsimp only at h
            rcases hdv : divergence repo with ⟨a2, bh2⟩
            rw [hdv] at h
            dsimp only at h
            simp only [Except.ok.injEq] at h
            exact ⟨bn, a2, bh2, i2, w2, h.symm⟩
  · have hidx : stringify_status (0, 0, 0) "" Color.green false false = "" :=
      stringify_status_nonpos 0 0 0 "" Color.green false false (by decide)
    have hwt : stringify_status (0, 0, 0) "| " Color.red false false = "" :=
      stringify_status_nonpos 0 0 0 "| " Color.red false false (by decide)
    by_cases hb : b = ""
    · subst hb
      unfold composeLine vec_of_status
      rw [hidx, hwt]
      rfl
    · have hbe : b.isEmpty = false := by
        rcases hbe2 : b.isEmpty with _ | _
        · rfl
        · exact absurd ((String.isEmpty_iff b).mp hbe2) hb
      unfold composeLine vec_of_status
      rw [hidx, hwt]
      show "[" ++ String.intercalate " " (List.filter (fun elem => !elem.isEmpty) [b, "", "", "", ""]) ++ "]" = "[" ++ b ++ "]"
      simp only [List.filter, hbe, Bool.not_false, String.isEmpty_iff]
      rfl

/-- A repository where everything succeeds except upstream resolution: a
clean tree on branch main with no upstream configured. -/
def demo_repo : Repo :=
  { is_bare := false
    statuses := Except.ok []
    head := Except.ok ⟨some "main"⟩
    revparse_single_head := Except.error ⟨ErrorCode.notFound, "upstream missing"⟩
    revparse_ext_upstream := Except.error ⟨ErrorCode.notFound, "upstream missing"⟩
    graph_ahead_behind := fun _ _ => Except.error ⟨ErrorCode.notFound, "upstream missing"⟩ }

theorem compose_output_witness :
    run (Except.ok demo_repo) false false = Except.ok "[main]" ∧
    ∃ b2 a2 bh2 i2 w2, "[main]" = composeLine b2 a2 bh2 i2 w2 false false :=
  ⟨rfl,
    (compose_output (Except.ok demo_repo) false false "[main]" "" 0 0 (0, 0, 0) (0, 0, 0)).1 rfl⟩

/-- Claim C5: head-resolution failures with the unborn-branch or not-found
code resolve to the sentinel branch name instead of an error, failures with
any other code propagate as errors, a resolved head without a shorthand
also yields the sentinel, and a resolved head with a shorthand yields that
shorthand. -/
theorem branch_resolution (repo : Repo) (e : GitError) (hr : HeadRef) :
    (repo.head = Except.error e → e.code = ErrorCode.unbornBranch ∨ e.code = ErrorCode.notFound →
      get_branch_name repo = Except.ok "no branch") ∧
    (repo.head = Except.error e → e.code ≠ ErrorCode.unbornBranch → e.code ≠ ErrorCode.notFound →
      get_branch_name repo = Except.error e) ∧
    (repo.head = Except.ok hr → hr.shorthand = none →
      get_branch_name repo = Except.ok "no branch") ∧
    (repo.head = Except.ok hr → ∀ s, hr.shorthand = some s →
      get_branch_name repo = Except.ok s) := by
  refine ⟨fun h1 h2 => ?_, fun h1 h2 h3 => ?_, fun h1 h2 => ?_, fun h1 s h2 => ?_⟩
  · unfold get_branch_name
    rw [h1]
    dsimp only
    rw [if_pos h2]
  · unfold get_branch_name
    rw [h1]
    dsimp only
    rw [if_neg (by tauto)]
  · unfold get_branch_name
    rw [h1]
    dsimp only
    rw [h2]
    rfl
  · unfold get_branch_name
    rw [h1]
    dsimp only
    rw [h2]
    rfl

/-- A repository with an unborn HEAD: no commits yet, head resolution fails
with the unborn-branch code. -/
def unborn_repo : Repo :=
  { is_bare := false
    statuses := Except.ok []
    head := Except.error ⟨ErrorCode.unbornBranch, "reference not found"⟩
    revparse_single_head := Except.error ⟨ErrorCode.unbornBranch, "reference not found"⟩
    revparse_ext_upstream := Except.error ⟨ErrorCode.unbornBranch, "reference not found"⟩
    graph_ahead_behind := fun _ _ => Except.error ⟨ErrorCode.unbornBranch, "reference not found"⟩ }

theorem branch_resolution_witness :
    unborn_repo.head = Except.error ⟨ErrorCode.unbornBranch, "reference not found"⟩ ∧
    get_branch_name unborn_repo = Except.ok "no branch" :=
  ⟨rfl,
    (branch_resolution unborn_repo ⟨ErrorCode.unbornBranch, "reference not found"⟩ ⟨none⟩).1
      rfl (Or.inl rfl)⟩

/-- Claim C6: any failure of the HEAD/upstream/ahead-behind resolution is
mapped to the divergence result (0, 0) by the caller, and such a failure is
never propagated: when the rest of the pipeline succeeds, the run still
produces its composed line, with both divergence counts zero. -/
theorem divergence_swallowed (repo : Repo) (e : GitError) (sts : List StatusEntry)
    (bn : String) (zsh co : Bool) :
    (is_ahead_behind_remote repo = Except.error e → divergence repo = (0, 0)) ∧
    (is_ahead_behind_remote repo = Except.error e → repo.is_bare = false →
      repo.statuses = Except.ok sts → get_branch_name repo = Except.ok bn →
      run (Except.ok repo) zsh co =
        Except.ok
          (composeLine bn 0 0 (get_short_status sts).1 (get_short_status sts).2 zsh co)) := by
  constructor
  · intro h
    unfold divergence
    rw [h]
  · intro h hb hst hbn
    have hd : divergence repo = (0, 0) := by
      unfold divergence
      rw [h]
    unfold run
    dsimp only
    rw [if_neg (by simp [hb]), hst]
    dsimp only
    rw [hbn]
    dsimp only
    rw [hd]

theorem divergence_swallowed_witness :
    is_ahead_behind_remote demo_repo = Except.error ⟨ErrorCode.notFound, "upstream missing"⟩ ∧
    divergence demo_repo = (0, 0) ∧
    run (Except.ok demo_repo) false false =
      Except.ok
        (composeLine "main" 0 0 (get_short_status []).1 (get_short_status []).2 false false) :=
  ⟨rfl,
    (divergence_swallowed demo_repo ⟨ErrorCode.notFound, "upstream missing"⟩ [] "main"
      false false).1 rfl,
    (divergence_swallowed demo_repo ⟨ErrorCode.notFound, "upstream missing"⟩ [] "main"
      false false).2 rfl rfl rfl rfl⟩

/-- Claim C7: the process exit code is 0 on every invocation; a failed run
prints no output line at all and only records the error message in the
debug log; a bare repository is rejected with exactly the error message
"Cannot report status on bare repository"; and a head-resolution failure
with a code other than unborn-branch or not-found aborts the run as an
error. -/
theorem fatal_errors_silent (repoRes : Except GitError Repo) (repo : Repo) (e : GitError)
    (sts : List StatusEntry) (zsh co : Bool) :
    (main repoRes zsh co).exit_code = 0 ∧
    (run repoRes zsh co = Except.error e →
      main repoRes zsh co =
        { output := none, debug_log := some e.message, exit_code := 0 }) ∧
    (repo.is_bare = true →
      run (Except.ok repo) zsh co =
        Except.error ⟨ErrorCode.genericError, "Cannot report status on bare repository"⟩) ∧
    (repo.is_bare = false → repo.statuses = Except.ok sts →
      repo.head = Except.error e →
      e.code ≠ ErrorCode.unbornBranch → e.code ≠ ErrorCode.notFound →
      run (Except.ok repo) zsh co = Except.error e) := by
  refine ⟨?_, fun h => ?_, fun hb => ?_, fun hb hst hh h1 h2 => ?_⟩
  · unfold main
    split <;> rfl
  · unfold main
    rw [h]
  · unfold run
    dsimp only
    rw [if_pos hb]
  · have hbn : get_branch_name repo = Except.error e := by
      unfold get_branch_name
      rw [hh]
      dsimp only
      rw [if_neg (by tauto)]
    unfold run
    dsimp only
    rw [if_neg (by simp [hb]), hst]
    dsimp only
    rw [hbn]

/-- A bare repository handle. -/
def bare_repo : Repo :=
  { is_bare := true
    statuses := Except.ok []
    head := Except.ok ⟨some "main"⟩
    revparse_single_head := Except.error ⟨ErrorCode.notFound, "missing"⟩
    revparse_ext_upstream := Except.error ⟨ErrorCode.notFound, "missing"⟩
    graph_ahead_behind := fun _ _ => Except.error ⟨ErrorCode.notFound, "missing"⟩ }

theorem fatal_errors_silent_witness :
    run (Except.ok bare_repo) false false =
      Except.error ⟨ErrorCode.genericError, "Cannot report status on bare repository"⟩ ∧
    main (Except.ok bare_repo) false false =
      { output := none, debug_log := some "Cannot report status on bare repository",
        exit_code := 0 } :=
  ⟨(fatal_errors_silent (Except.ok bare_repo) bare_repo
      ⟨ErrorCode.genericError, "Cannot report status on bare repository"⟩ [] false false).2.2.1
      rfl,
    (fatal_errors_silent (Except.ok bare_repo) bare_repo
      ⟨ErrorCode.genericError, "Cannot report status on bare repository"⟩ [] false false).2.1
      ((fatal_errors_silent (Except.ok bare_repo) bare_repo
        ⟨ErrorCode.genericError, "Cannot report status on bare repository"⟩ [] false false).2.2.1
        rfl)⟩

/-- Claim C8, counterexample: a run invoked without the color flag but with
the zsh flag does not render plain text — the branch segment comes out
wrapped in prompt-escape directives, not equal to its raw text. -/
theorem color_flag_plain_counterexample :
    format_color "main" Color.blue true false ≠ "main" := by decide

/-- Claim C8, amended: with color disabled and the zsh mode also off, every
segment's rendering is exactly its raw text, with no escape codes added. -/
theorem plain_mode_identity (s : String) (c : Color) :
    format_color s c false false = s := rfl

/-- Claim C9: rendering any color role outside the supported named-color
table (blue, green, red, yellow) in prompt-escape mode does not fail: the
output carries the literal marker "not implemented yet" where the color
name would stand inside the percent-delimited directive. -/
theorem unsupported_color_marker (s : String) (c : Color) (co : Bool)
    (h1 : c ≠ Color.blue) (h2 : c ≠ Color.green) (h3 : c ≠ Color.red)
    (h4 : c ≠ Color.yellow) :
    ∃ pre post, format_color s c true co = pre ++ "not implemented yet" ++ post := by
  have hname : zsh_color_name c = "not implemented yet" := by
    cases c <;>
      first
        | exact absurd rfl h1
        | exact absurd rfl h2
        | exact absurd rfl h3
        | exact absurd rfl h4
        | rfl
  refine ⟨"%F\x7b", "\x7d" ++ s ++ "%f", ?_⟩
  show "%F\x7b" ++ zsh_color_name c ++ "\x7d" ++ s ++ "%f" = _
  rw [hname]
  simp only [String.append_assoc]

theorem unsupported_color_marker_witness :
    (Color.black ≠ Color.blue ∧ Color.black ≠ Color.green ∧ Color.black ≠ Color.red ∧
      Color.black ≠ Color.yellow) ∧
    ∃ pre post, format_color "x" Color.black true false =
      pre ++ "not implemented yet" ++ post :=
  ⟨by decide,
    unsupported_color_marker "x" Color.black false (by decide) (by decide) (by decide)
      (by decide)⟩

/-- Claim C10: in prompt-escape mode, whenever some counter is positive,
`stringify_status` color-wraps its prefix even when that prefix is empty,
so the index-side segment (whose prefix is the empty string) always starts
with the empty yellow directive pair before the colored counts. -/
theorem zsh_empty_prefix_wrap (n m d : Int) (c : Color) (co : Bool)
    (h : n > 0 ∨ m > 0 ∨ d > 0) :
    ∃ rest, stringify_status (n, m, d) "" c true co = "%F\x7byellow\x7d%f" ++ rest := by
  refine ⟨format_color ("+" ++ toString n ++ " ~" ++ toString m ++ " -" ++ toString d) c true co,
    ?_⟩
  rw [stringify_status_pos n m d "" c true co h]
  congr 1

theorem zsh_empty_prefix_wrap_witness :
    ((1 : Int) > 0 ∨ (0 : Int) > 0 ∨ (0 : Int) > 0) ∧
    ∃ rest, stringify_status (1, 0, 0) "" Color.green true false =
      "%F\x7byellow\x7d%f" ++ rest :=
  ⟨by decide, zsh_empty_prefix_wrap 1 0 0 Color.green false (by decide)⟩

end GitPrompt
